import Mathlib

/-!
# MLX90642 driver — formal model

Shallow embedding of the MLX90642 Arduino library (MLX90642.cpp /
MLX90642.h).  The two-wire (I2C) transport is modelled explicitly: the
environment supplies a queue of responses for read transactions and a
queue of success flags for write transactions, and every bus transaction
the driver issues is appended to a log.  16-bit machine words are
modelled as `Nat` below 2^16 (the decoders only ever produce such
values); signed 16-bit values are `Int` obtained by two's-complement
reinterpretation.  Float arithmetic in the source (the `/ 50.0f` and
`/ 100.0f` temperature scalings) is modelled as exact rational division.
-/

/-- Protocol constant `MLX90642_ADDR` from MLX90642.h. -/
def MLX90642_ADDR : Nat := 0x66

/-- Protocol constant `NUM_PIXELS` from MLX90642.h. -/
def NUM_PIXELS : Nat := 768

/-- Protocol constant `FRAME_ADDR` from MLX90642.h. -/
def FRAME_ADDR : Nat := 0x342C

/-- The environment's answer to one read transaction: the result of
`Wire.endTransmission(false)` (0 means success), the number of bytes
`Wire.available()` reports, and the two bytes delivered by `Wire.read()`
(truncated to 8 bits on decoding, as the `uint8_t` assignment does). -/
structure BusResponse where
  endStatus : Nat
  available : Nat
  hi : Nat
  lo : Nat
deriving DecidableEq, Repr

/-- One bus transaction issued by the driver: an address-phase read of a
word at an address, or an EEPROM configuration write of a value to an
address. -/
inductive Transaction where
  | readTx : Nat → Transaction
  | writeTx : Nat → Nat → Transaction
deriving DecidableEq, Repr

/-- Bus/environment state threaded through every driver operation:
pending read responses, pending write outcomes, and the chronological
log of transactions issued so far. -/
structure St where
  reads : List BusResponse
  writes : List Bool
  log : List Transaction
deriving DecidableEq, Repr

/-- Response delivered when the environment queue is exhausted: a
transport failure (non-zero completion status, no bytes). -/
def failResp : BusResponse := ⟨1, 0, 0, 0⟩

/-- Consume the next read response from the environment. -/
def nextRead (s : St) : BusResponse × St :=
  match s.reads with
  | [] => (failResp, s)
  | r :: rs => (r, { s with reads := rs })

/-- Consume the next write outcome from the environment. -/
def nextWrite (s : St) : Bool × St :=
  match s.writes with
  | [] => (false, s)
  | w :: ws => (w, { s with writes := ws })

/-- Pure decoding done by `MLX90642::readAddr_unsigned` on one response:
`0xFFFF` if the address phase failed or fewer than 2 bytes are
available, else the two bytes packed MSB-first. -/
def decodeUnsigned (r : BusResponse) : Nat :=
  if r.endStatus ≠ 0 then 0xFFFF
  else if r.available < 2 then 0xFFFF
  else (r.hi % 256) * 256 + (r.lo % 256)

/-- Two's-complement reinterpretation of a 16-bit pattern as a signed
value, the effect of the C cast `(int16_t)`. -/
def toInt16 (v : Nat) : Int :=
  if v % 65536 < 32768 then (v % 65536 : Int) else (v % 65536 : Int) - 65536

/-- Pure decoding done by `MLX90642::readAddr_signed` on one response:
the source returns the pattern `0xFFFF` (i.e. `-1` as `int16_t`) on
failure, else the packed bytes cast to `int16_t`. -/
def decodeSigned (r : BusResponse) : Int :=
  if r.endStatus ≠ 0 then -1
  else if r.available < 2 then -1
  else toInt16 ((r.hi % 256) * 256 + (r.lo % 256))

/-- `MLX90642::readAddr_unsigned` (MLX90642.cpp lines 45-55): issues one
address-phase read transaction and decodes the response. -/
def readAddr_unsigned (addr : Nat) (s : St) : Nat × St :=
  let p := nextRead s
  (decodeUnsigned p.1, { p.2 with log := p.2.log ++ [Transaction.readTx addr] })

/-- `MLX90642::readAddr_signed` (MLX90642.cpp lines 58-68): the identical
bus sequence, decoded as signed. -/
def readAddr_signed (addr : Nat) (s : St) : Int × St :=
  let p := nextRead s
  (decodeSigned p.1, { p.2 with log := p.2.log ++ [Transaction.readTx addr] })

/-- `MLX90642::writeEEPROM` (MLX90642.cpp lines 97-108): issues one write
transaction (opcode 0x3A, sub-opcode 0x2E, address, value) and reports
the transport's completion status. -/
def writeEEPROM (eepromAddr newValue : Nat) (s : St) : Bool × St :=
  let p := nextWrite s
  (p.1, { p.2 with log := p.2.log ++ [Transaction.writeTx eepromAddr newValue] })

/-- `MLX90642::pix_addr` (MLX90642.cpp lines 154-157): word address of
pixel `pxl`, or 0 for an out-of-range index.  No bus access. -/
def pix_addr (pxl : Nat) : Nat :=
  if pxl ≥ NUM_PIXELS then 0 else FRAME_ADDR + pxl * 2

/-- `MLX90642::setRefreshRate` (MLX90642.cpp lines 111-123):
validate the rate code, read 0x11F0, clear bits 0:2 and OR in the code,
write it back via `writeEEPROM`, re-read 0x11F0 and compare the low
3 bits.  (`ctrl &= ~0b111` on a `uint16_t` is `&&& 0xFFF8`.) -/
def setRefreshRate (rate_hz : Nat) (s : St) : Bool × St :=
  if rate_hz < 2 ∨ rate_hz > 5 then (false, s)
  else
    let p1 := readAddr_unsigned 0x11F0 s
    if p1.1 = 0xFFFF then (false, p1.2)
    else
      let ctrl := (p1.1 &&& 0xFFF8) ||| rate_hz
      let p2 := writeEEPROM 0x11F0 ctrl p1.2
      if p2.1 = false then (false, p2.2)
      else
        let p3 := readAddr_unsigned 0x11F0 p2.2
        if p3.1 = 0xFFFF then (false, p3.2)
        else (decide ((p3.1 &&& 0x07) = rate_hz), p3.2)

/-- Driver-instance state: the `static uint16_t lastProgress = 0` of
`MLX90642::isNewDataAvailable`, modelled as an explicit field. -/
structure Driver where
  lastProgress : Nat
deriving DecidableEq, Repr

/-- Construction: the stored progress baseline starts at 0. -/
def Driver.init : Driver := ⟨0⟩

/-- `MLX90642::isNewDataAvailable` (MLX90642.cpp lines 36-42): read the
progress register 0x3C10, report a wraparound (new reading strictly
below the stored one), and unconditionally store the new reading. -/
def isNewDataAvailable (d : Driver) (s : St) : Bool × Driver × St :=
  let p := readAddr_unsigned 0x3C10 s
  (decide (p.1 < d.lastProgress), ⟨p.1⟩, p.2)

/-- Iterate `isNewDataAvailable` n times, collecting the returned flags. -/
def runNewData (d : Driver) (s : St) : Nat → List Bool
  | 0 => []
  | n + 1 =>
    let p := isNewDataAvailable d s
    p.1 :: runNewData p.2.1 p.2.2 n

/-- A successful read response delivering the 16-bit word `v`. -/
def okResp (v : Nat) : BusResponse := ⟨0, 2, v / 256, v % 256⟩

/-- `MLX90642::readTa` (MLX90642.cpp lines 73-82): signed word at 0x3A2C
divided by 100. -/
def readTa (s : St) : Rat × St :=
  let p := readAddr_signed 0x3A2C s
  ((p.1 : Rat) / 100, p.2)

/-- The loop body of `MLX90642::readTempC`, reading pixels `i` to
`i + n - 1`. -/
def readTempC_go : Nat → Nat → St → List Rat × St
  | _, 0, s => ([], s)
  | i, n + 1, s =>
    let p := readAddr_signed (pix_addr i) s
    let q := readTempC_go (i + 1) n p.2
    ((p.1 : Rat) / 50 :: q.1, q.2)

/-- `MLX90642::readTempC` (MLX90642.cpp lines 85-89): for each pixel
index, the signed word at `pix_addr i` divided by 50, in index order.
The caller's output buffer is modelled as the returned list. -/
def readTempC (s : St) : List Rat × St :=
  readTempC_go 0 NUM_PIXELS s

/-! ## Basic facts about the model -/

lemma decodeUnsigned_lt (r : BusResponse) : decodeUnsigned r < 65536 := by
  unfold decodeUnsigned
  split_ifs
  · norm_num
  · norm_num
  · have h1 : r.hi % 256 < 256 := Nat.mod_lt _ (by norm_num)
    have h2 : r.lo % 256 < 256 := Nat.mod_lt _ (by norm_num)
    omega

lemma nextRead_snd_log (s : St) : (nextRead s).2.log = s.log := by
  rcases s with ⟨reads, writes, log⟩
  cases reads <;> rfl

lemma nextRead_snd_writes (s : St) : (nextRead s).2.writes = s.writes := by
  rcases s with ⟨reads, writes, log⟩
  cases reads <;> rfl

/-- Low 3 bits of the updated configuration word are exactly the rate code. -/
lemma written_and_seven {v rate : Nat} (hr : rate < 8) :
    ((v &&& 0xFFF8) ||| rate) &&& 0x07 = rate := by
  apply Nat.eq_of_testBit_eq
  intro i
  rcases Nat.lt_or_ge i 3 with h3 | h3
  · have hm : Nat.testBit 0xFFF8 i = false := by interval_cases i <;> decide
    have h7 : Nat.testBit 7 i = true := by interval_cases i <;> decide
    simp [Nat.testBit_and, Nat.testBit_or, hm, h7]
  · have h8 : (8 : Nat) ≤ 2 ^ i := by
      calc (8 : Nat) = 2 ^ 3 := by norm_num
      _ ≤ 2 ^ i := Nat.pow_le_pow_right (by norm_num) h3
    have h7 : Nat.testBit 7 i = false :=
      Nat.testBit_eq_false_of_lt (lt_of_lt_of_le (by norm_num) h8)
    have hrt : Nat.testBit rate i = false :=
      Nat.testBit_eq_false_of_lt (lt_of_lt_of_le hr h8)
    simp [Nat.testBit_and, Nat.testBit_or, h7, hrt]

/-- Bits 3 and above of the updated configuration word agree with the word
originally read. -/
lemma written_testBit_high {v rate : Nat} (hv : v < 65536) (hr : rate < 8) :
    ∀ i, 3 ≤ i → Nat.testBit ((v &&& 0xFFF8) ||| rate) i = Nat.testBit v i := by
  intro i hi
  have h8 : (8 : Nat) ≤ 2 ^ i := by
    calc (8 : Nat) = 2 ^ 3 := by norm_num
    _ ≤ 2 ^ i := Nat.pow_le_pow_right (by norm_num) hi
  have hrt : Nat.testBit rate i = false :=
    Nat.testBit_eq_false_of_lt (lt_of_lt_of_le hr h8)
  rcases Nat.lt_or_ge i 16 with h16 | h16
  · have hm : Nat.testBit 0xFFF8 i = true := by interval_cases i <;> decide
    simp [Nat.testBit_or, Nat.testBit_and, hm, hrt]
  · have h64 : (65536 : Nat) ≤ 2 ^ i := by
      calc (65536 : Nat) = 2 ^ 16 := by norm_num
      _ ≤ 2 ^ i := Nat.pow_le_pow_right (by norm_num) h16
    have hm : Nat.testBit 0xFFF8 i = false :=
      Nat.testBit_eq_false_of_lt (lt_of_lt_of_le (by norm_num) h64)
    have hvb : Nat.testBit v i = false :=
      Nat.testBit_eq_false_of_lt (lt_of_lt_of_le hv h64)
    simp [Nat.testBit_or, Nat.testBit_and, hm, hrt, hvb]

/-- An out-of-range rate code makes `setRefreshRate` return `false` with the
state untouched. -/
lemma setRefreshRate_not_valid (rate : Nat) (s : St) (h : rate < 2 ∨ 5 < rate) :
    setRefreshRate rate s = (false, s) := by
  unfold setRefreshRate
  rw [if_pos h]

/-- Full characterisation of `setRefreshRate` on a valid rate code with the
environment supplying two read responses and one write outcome. -/
lemma setRefreshRate_run (rate : Nat) (h1 : 2 ≤ rate) (h2 : rate ≤ 5)
    (r1 r2 : BusResponse) (w : Bool) (rs : List BusResponse) (ws : List Bool)
    (l : List Transaction) :
    setRefreshRate rate ⟨r1 :: r2 :: rs, w :: ws, l⟩ =
      if decodeUnsigned r1 = 0xFFFF then
        (false, ⟨r2 :: rs, w :: ws, l ++ [Transaction.readTx 0x11F0]⟩)
      else if w = false then
        (false, ⟨r2 :: rs, ws, l ++ [Transaction.readTx 0x11F0,
          Transaction.writeTx 0x11F0 ((decodeUnsigned r1 &&& 0xFFF8) ||| rate)]⟩)
      else if decodeUnsigned r2 = 0xFFFF then
        (false, ⟨rs, ws, l ++ [Transaction.readTx 0x11F0,
          Transaction.writeTx 0x11F0 ((decodeUnsigned r1 &&& 0xFFF8) ||| rate),
          Transaction.readTx 0x11F0]⟩)
      else
        (decide ((decodeUnsigned r2 &&& 0x07) = rate),
         ⟨rs, ws, l ++ [Transaction.readTx 0x11F0,
          Transaction.writeTx 0x11F0 ((decodeUnsigned r1 &&& 0xFFF8) ||| rate),
          Transaction.readTx 0x11F0]⟩) := by
  have hv : ¬ (rate < 2 ∨ rate > 5) := by omega
  simp only [setRefreshRate, readAddr_unsigned, writeEEPROM, nextRead, nextWrite, hv, if_false]
  split_ifs with hA hB hC <;> simp_all

/-! ## Claim theorems -/

/-- C4: for every pixel index `i < NUM_PIXELS` (= 768), `pix_addr i`
equals the frame base address 0x342C plus `2 * i` and is even; for every
index `≥ NUM_PIXELS`, `pix_addr` returns the error sentinel 0.  `pix_addr`
is a pure function: no bus access is involved. -/
theorem pix_addr_spec :
    (∀ i, i < NUM_PIXELS → pix_addr i = FRAME_ADDR + 2 * i ∧ pix_addr i % 2 = 0) ∧
    (∀ i, NUM_PIXELS ≤ i → pix_addr i = 0) := by
  constructor
  · intro i hi
    simp only [pix_addr, NUM_PIXELS, FRAME_ADDR] at *
    rw [if_neg (by omega)]
    omega
  · intro i hi
    simp only [pix_addr, NUM_PIXELS] at *
    rw [if_pos (by omega)]

/-- Witness for C4 at pixel 10 and at the out-of-range index 768. -/
theorem pix_addr_spec_witness :
    pix_addr 10 = FRAME_ADDR + 2 * 10 ∧ pix_addr 10 % 2 = 0 ∧ pix_addr 768 = 0 :=
  ⟨(pix_addr_spec.1 10 (by decide)).1, (pix_addr_spec.1 10 (by decide)).2,
    pix_addr_spec.2 768 (by decide)⟩

/-- C6: for every rate code outside {2,3,4,5}, `setRefreshRate` returns
failure immediately and leaves the state — read queue, write queue and
transaction log — completely untouched: no bus access, no side effects. -/
theorem setRefreshRate_rejects_invalid (rate : Nat) (s : St) (h : rate < 2 ∨ 5 < rate) :
    setRefreshRate rate s = (false, s) :=
  setRefreshRate_not_valid rate s h

/-- Witness for C6 at rate code 7. -/
theorem setRefreshRate_rejects_invalid_witness :
    setRefreshRate 7 ⟨[okResp 5], [true], []⟩ = (false, ⟨[okResp 5], [true], []⟩) :=
  setRefreshRate_rejects_invalid 7 ⟨[okResp 5], [true], []⟩ (by decide)

/-- C3 counterexample: a fully successful transaction (completion status 0,
2 bytes available) whose response bytes are 0xFF 0xFF also makes
`readAddr_unsigned` return 0xFFFF, so the sentinel is not returned *only*
on the failure conditions — the claimed "if and only if" fails. -/
theorem readAddr_sentinel_not_only_if :
    (BusResponse.mk 0 2 255 255).endStatus = 0 ∧
    2 ≤ (BusResponse.mk 0 2 255 255).available ∧
    (readAddr_unsigned 0x3C10 ⟨[BusResponse.mk 0 2 255 255], [], []⟩).1 = 0xFFFF := by
  decide

/-- C3 (amended): `readAddr_unsigned` returns the sentinel 0xFFFF *if* the
address-phase transaction reports non-success or fewer than 2 response
bytes are available; otherwise it returns the two response bytes packed
MSB-first (a value that coincides with 0xFFFF exactly when both bytes are
0xFF).  `readAddr_signed` performs the identical bus sequence, returns the
bit pattern 0xFFFF reinterpreted as the signed value -1 on the same
failure conditions, and otherwise the MSB-first packed 16 bits
reinterpreted as two's-complement signed. -/
theorem readAddr_spec (addr : Nat) (r : BusResponse) (rs : List BusResponse)
    (ws : List Bool) (l : List Transaction) :
    (r.endStatus ≠ 0 ∨ r.available < 2 →
      (readAddr_unsigned addr ⟨r :: rs, ws, l⟩).1 = 0xFFFF ∧
      (readAddr_signed addr ⟨r :: rs, ws, l⟩).1 = -1) ∧
    (r.endStatus = 0 → 2 ≤ r.available →
      (readAddr_unsigned addr ⟨r :: rs, ws, l⟩).1 = (r.hi % 256) * 256 + (r.lo % 256) ∧
      (readAddr_signed addr ⟨r :: rs, ws, l⟩).1 = toInt16 ((r.hi % 256) * 256 + (r.lo % 256))) ∧
    (readAddr_signed addr ⟨r :: rs, ws, l⟩).1 =
      toInt16 (readAddr_unsigned addr ⟨r :: rs, ws, l⟩).1 ∧
    (readAddr_unsigned addr ⟨r :: rs, ws, l⟩).2 = (readAddr_signed addr ⟨r :: rs, ws, l⟩).2 := by
  simp only [readAddr_unsigned, readAddr_signed, nextRead, decodeUnsigned, decodeSigned]
  by_cases h1 : r.endStatus = 0 <;> by_cases h2 : r.available < 2 <;>
    simp [h1, h2, toInt16]

/-- Witness for C3 (amended) on a failing response and hypothesis-free
evaluation of the failure branch. -/
theorem readAddr_spec_witness :
    (readAddr_unsigned 0x3A2C ⟨[failResp], [], []⟩).1 = 0xFFFF ∧
    (readAddr_signed 0x3A2C ⟨[failResp], [], []⟩).1 = -1 :=
  (readAddr_spec 0x3A2C failResp [] [] []).1 (Or.inl (by decide))

/-- C2: `isNewDataAvailable` keeps a stored previous progress value
initialised to 0; every call performs exactly one read of the progress
register 0x3C10, returns true iff the newly read value is strictly below
the stored value, and unconditionally stores the new reading (also when
the read fails and decodes to 0xFFFF, since the response is arbitrary
here).  The first call from the initial state always returns false, and
feeding the readings [10, 50, 90, 5, 40] yields
[false, false, false, true, false]. -/
theorem isNewDataAvailable_spec (d : Driver) (r : BusResponse) (rs : List BusResponse)
    (ws : List Bool) (l : List Transaction) :
    Driver.init.lastProgress = 0 ∧
    ((isNewDataAvailable d ⟨r :: rs, ws, l⟩).1 = true ↔ decodeUnsigned r < d.lastProgress) ∧
    (isNewDataAvailable d ⟨r :: rs, ws, l⟩).2.1.lastProgress = decodeUnsigned r ∧
    (isNewDataAvailable d ⟨r :: rs, ws, l⟩).2.2.log = l ++ [Transaction.readTx 0x3C10] ∧
    (d = Driver.init → (isNewDataAvailable d ⟨r :: rs, ws, l⟩).1 = false) ∧
    runNewData Driver.init ⟨[okResp 10, okResp 50, okResp 90, okResp 5, okResp 40], [], []⟩ 5 =
      [false, false, false, true, false] := by
  refine ⟨rfl, ?_, rfl, rfl, ?_, by decide⟩
  · simp [isNewDataAvailable, readAddr_unsigned, nextRead]
  · rintro rfl
    simp [isNewDataAvailable, readAddr_unsigned, nextRead, Driver.init]

/-- Witness for C2: the first call from the initial state returns false. -/
theorem isNewDataAvailable_spec_witness :
    (isNewDataAvailable Driver.init ⟨[okResp 7], [], []⟩).1 = false :=
  (isNewDataAvailable_spec Driver.init (okResp 7) [] [] []).2.2.2.2.1 rfl

/-- C7: `readTa` returns the two's-complement signed word read at the
sensor-temperature register 0x3A2C divided by 100; a raw signed reading
of 3357 yields 33.57. -/
theorem readTa_spec (r : BusResponse) (rs : List BusResponse) (ws : List Bool)
    (l : List Transaction) :
    (readTa ⟨r :: rs, ws, l⟩).1 = (decodeSigned r : Rat) / 100 ∧
    (readTa ⟨r :: rs, ws, l⟩).2.log = l ++ [Transaction.readTx 0x3A2C] ∧
    (decodeSigned r = 3357 → (readTa ⟨r :: rs, ws, l⟩).1 = 33.57) := by
  refine ⟨rfl, rfl, fun h => ?_⟩
  have h1 : (readTa ⟨r :: rs, ws, l⟩).1 = (decodeSigned r : Rat) / 100 := rfl
  rw [h1, h]
  norm_num

/-- Witness for C7 at the datasheet example value 3357. -/
theorem readTa_spec_witness : (readTa ⟨[okResp 3357], [], []⟩).1 = 33.57 :=
  (readTa_spec (okResp 3357) [] [] []).2.2 (by decide)

/-- C1: for every valid rate code in {2,3,4,5}, `setRefreshRate` reads the
configuration word at 0x11F0 and fails if the read decodes to the sentinel
0xFFFF; otherwise it writes back the read word with its low 3 bits cleared
ORed with the rate code (the written word keeps every bit of the read word
from bit 3 up and carries the rate code in bits 0:2); it fails if the
EEPROM write reports failure; otherwise it re-reads 0x11F0, fails if the
re-read decodes to the sentinel (even though the write succeeded), and
succeeds iff the low 3 bits of the re-read word equal the rate code. -/
theorem setRefreshRate_valid_spec (rate : Nat) (h1 : 2 ≤ rate) (h2 : rate ≤ 5)
    (r1 r2 : BusResponse) (w : Bool) (rs : List BusResponse) (ws : List Bool)
    (l : List Transaction) :
    (decodeUnsigned r1 = 0xFFFF →
      (setRefreshRate rate ⟨r1 :: r2 :: rs, w :: ws, l⟩).1 = false ∧
      (setRefreshRate rate ⟨r1 :: r2 :: rs, w :: ws, l⟩).2.log =
        l ++ [Transaction.readTx 0x11F0]) ∧
    (decodeUnsigned r1 ≠ 0xFFFF →
      ((decodeUnsigned r1 &&& 0xFFF8) ||| rate) &&& 0x07 = rate ∧
      (∀ i, 3 ≤ i → Nat.testBit ((decodeUnsigned r1 &&& 0xFFF8) ||| rate) i =
        Nat.testBit (decodeUnsigned r1) i)) ∧
    (decodeUnsigned r1 ≠ 0xFFFF → w = false →
      (setRefreshRate rate ⟨r1 :: r2 :: rs, w :: ws, l⟩).1 = false ∧
      (setRefreshRate rate ⟨r1 :: r2 :: rs, w :: ws, l⟩).2.log =
        l ++ [Transaction.readTx 0x11F0,
          Transaction.writeTx 0x11F0 ((decodeUnsigned r1 &&& 0xFFF8) ||| rate)]) ∧
    (decodeUnsigned r1 ≠ 0xFFFF → w = true →
      (setRefreshRate rate ⟨r1 :: r2 :: rs, w :: ws, l⟩).2.log =
        l ++ [Transaction.readTx 0x11F0,
          Transaction.writeTx 0x11F0 ((decodeUnsigned r1 &&& 0xFFF8) ||| rate),
          Transaction.readTx 0x11F0]) ∧
    (decodeUnsigned r1 ≠ 0xFFFF → w = true → decodeUnsigned r2 = 0xFFFF →
      (setRefreshRate rate ⟨r1 :: r2 :: rs, w :: ws, l⟩).1 = false) ∧
    (decodeUnsigned r1 ≠ 0xFFFF → w = true → decodeUnsigned r2 ≠ 0xFFFF →
      ((setRefreshRate rate ⟨r1 :: r2 :: rs, w :: ws, l⟩).1 = true ↔
        decodeUnsigned r2 &&& 0x07 = rate)) := by
  rw [setRefreshRate_run rate h1 h2 r1 r2 w rs ws l]
  refine ⟨fun hA => ?_, fun hA => ?_, fun hA hw => ?_, fun hA hw => ?_,
    fun hA hw hB => ?_, fun hA hw hB => ?_⟩
  · simp [hA]
  · exact ⟨written_and_seven (by omega),
      written_testBit_high (decodeUnsigned_lt r1) (by omega)⟩
  · subst hw
    simp [hA]
  · subst hw
    by_cases hB : decodeUnsigned r2 = 0xFFFF <;> simp [hA, hB]
  · subst hw
    simp [hA, hB]
  · subst hw
    simp [hA, hB]

/-- Witness for C1: the spec's mock run — rate 4, first read 0b101, write
accepted, verification read 0b100 — succeeds, with the full transaction
log as predicted. -/
theorem setRefreshRate_valid_spec_witness :
    (setRefreshRate 4 ⟨[okResp 5, okResp 4], [true], []⟩).1 = true :=
  ((setRefreshRate_valid_spec 4 (by decide) (by decide) (okResp 5) (okResp 4) true
    [] [] []).2.2.2.2.2 (by decide) rfl (by decide)).mpr (by decide)

/-- C9: the verification step compares only the low 3 bits of the re-read
word: whenever the initial read, the write and the re-read all succeed and
the re-read word ANDed with 0x07 equals the rate code, `setRefreshRate`
returns true — the upper 13 bits of the re-read word are unconstrained, so
success does not certify that the reserved bits were preserved in the
device. -/
theorem setRefreshRate_verifies_low_bits_only (rate : Nat) (h1 : 2 ≤ rate) (h2 : rate ≤ 5)
    (r1 r2 : BusResponse) (rs : List BusResponse) (ws : List Bool) (l : List Transaction)
    (hr1 : decodeUnsigned r1 ≠ 0xFFFF) (hr2 : decodeUnsigned r2 ≠ 0xFFFF)
    (hlow : decodeUnsigned r2 &&& 0x07 = rate) :
    (setRefreshRate rate ⟨r1 :: r2 :: rs, true :: ws, l⟩).1 = true := by
  rw [setRefreshRate_run rate h1 h2 r1 r2 true rs ws l]
  simp [hr1, hr2, hlow]

/-- Witness for C9: rate 4 written as word 0x0004, but verification read
0xFF04 whose upper bits differ from the written word; the call still
succeeds. -/
theorem setRefreshRate_verifies_low_bits_only_witness :
    (setRefreshRate 4 ⟨[okResp 0, okResp 0xFF04], [true], []⟩).1 = true ∧
    decodeUnsigned (okResp 0xFF04) &&& 0xFFF8 ≠
      ((decodeUnsigned (okResp 0) &&& 0xFFF8) ||| 4) &&& 0xFFF8 :=
  ⟨setRefreshRate_verifies_low_bits_only 4 (by decide) (by decide) (okResp 0)
    (okResp 0xFF04) [] [] [] (by decide) (by decide) (by decide), by decide⟩

/-- C10: if the rate code is invalid or the initial configuration read
decodes to the sentinel 0xFFFF, `setRefreshRate` returns false and its
transaction log shows no EEPROM write — it is either unchanged (invalid
code) or extended by the single read of 0x11F0, so the device
configuration is untouched. -/
theorem setRefreshRate_early_fail_no_write (rate : Nat) (s : St)
    (h : (rate < 2 ∨ 5 < rate) ∨ decodeUnsigned (nextRead s).1 = 0xFFFF) :
    (setRefreshRate rate s).1 = false ∧
    ((setRefreshRate rate s).2.log = s.log ∨
      (setRefreshRate rate s).2.log = s.log ++ [Transaction.readTx 0x11F0]) := by
  by_cases hv : rate < 2 ∨ 5 < rate
  · rw [setRefreshRate_not_valid rate s hv]
    exact ⟨rfl, Or.inl rfl⟩
  · have hsent : decodeUnsigned (nextRead s).1 = 0xFFFF := by tauto
    have hcond : (readAddr_unsigned 0x11F0 s).1 = 0xFFFF := hsent
    have hv2 : ¬ (rate < 2 ∨ rate > 5) := hv
    simp only [setRefreshRate, hv2, if_false, hcond, if_pos]
    refine ⟨trivial, Or.inr ?_⟩
    simp [readAddr_unsigned, nextRead_snd_log]

/-- Witness for C10: rate 4 with a transport-failing first read returns
false and logs only the single read transaction. -/
theorem setRefreshRate_early_fail_no_write_witness :
    (setRefreshRate 4 ⟨[failResp], [true], []⟩).1 = false ∧
    ((setRefreshRate 4 ⟨[failResp], [true], []⟩).2.log = ([] : List Transaction) ∨
      (setRefreshRate 4 ⟨[failResp], [true], []⟩).2.log =
        ([] : List Transaction) ++ [Transaction.readTx 0x11F0]) :=
  setRefreshRate_early_fail_no_write 4 ⟨[failResp], [true], []⟩ (Or.inr (by decide))

/-- The pixel-read loop consumes exactly its responses, scales each signed
decoding by 1/50 in order, and logs one read per pixel address. -/
lemma readTempC_go_spec : ∀ (n i : Nat) (rs : List BusResponse) (ws : List Bool)
    (l : List Transaction), rs.length = n →
    readTempC_go i n ⟨rs, ws, l⟩ =
      (rs.map (fun r => (decodeSigned r : Rat) / 50),
        ⟨[], ws, l ++ (List.range n).map (fun j => Transaction.readTx (pix_addr (i + j)))⟩)
  | 0, i, rs, ws, l, h => by
    cases rs with
    | nil => simp [readTempC_go]
    | cons r rs2 => simp at h
  | n + 1, i, rs, ws, l, h => by
    cases rs with
    | nil => simp at h
    | cons r rs2 =>
      have ih := readTempC_go_spec n (i + 1) rs2 ws
        (l ++ [Transaction.readTx (pix_addr i)]) (by simpa using h)
      simp only [readTempC_go, readAddr_signed, nextRead, ih]
      simp only [Prod.mk.injEq, St.mk.injEq]
      refine ⟨rfl, trivial, trivial, ?_⟩
      simp only [List.range_succ_eq_map, List.map_cons, List.map_map, List.append_assoc,
        List.cons_append, List.nil_append, Nat.add_zero]
      congr 1
      congr 1
      congr 1
      funext j
      simp only [Function.comp_apply]
      congr 1
      congr 1
      omega

/-- C5: `readTempC`, on an environment supplying one response per pixel,
fully overwrites the output buffer in pixel-index order with the signed
decoding of each response divided by 50 (per-pixel failures decode to -1
and are written through as -1/50 = -0.02 with no aggregation or retry),
reading each pixel at its `pix_addr`; when every response carries the raw
value 250 every element of the resulting frame equals 5. -/
theorem readTempC_spec (rs : List BusResponse) (ws : List Bool) (l : List Transaction)
    (h : rs.length = NUM_PIXELS) :
    (readTempC ⟨rs, ws, l⟩).1 = rs.map (fun r => (decodeSigned r : Rat) / 50) ∧
    (readTempC ⟨rs, ws, l⟩).1.length = NUM_PIXELS ∧
    (readTempC ⟨rs, ws, l⟩).2.log =
      l ++ (List.range NUM_PIXELS).map (fun i => Transaction.readTx (pix_addr i)) ∧
    ((∀ r ∈ rs, decodeSigned r = 250) → ∀ q ∈ (readTempC ⟨rs, ws, l⟩).1, q = 5) := by
  have hrun := readTempC_go_spec NUM_PIXELS 0 rs ws l h
  have h1 : (readTempC ⟨rs, ws, l⟩).1 = rs.map (fun r => (decodeSigned r : Rat) / 50) := by
    simp [readTempC, hrun]
  refine ⟨h1, ?_, ?_, ?_⟩
  · rw [h1, List.length_map, h]
  · simp only [readTempC, hrun]
    simp
  · intro hall q hq
    rw [h1] at hq
    obtain ⟨r, hr, rfl⟩ := List.mem_map.1 hq
    rw [hall r hr]
    norm_num

/-- Witness for C5: 768 successful responses each carrying raw value 250
yield the constant frame of value 5. -/
theorem readTempC_spec_witness :
    (readTempC ⟨List.replicate NUM_PIXELS (okResp 250), [], []⟩).1 =
      List.replicate NUM_PIXELS ((5 : Rat)) := by
  have h := (readTempC_spec (List.replicate NUM_PIXELS (okResp 250)) [] []
    (by simp)).1
  rw [h, List.map_replicate]
  have hd : decodeSigned (okResp 250) = 250 := by decide
  rw [hd]
  norm_num
